import Mathlib

/-!
# gotask: task controller and process task

A shallow embedding of `task.go`, `task_controller.go` and `task_exec.go`.

* Go maps are key-unique association lists (`AList`); the order of the list
  stands for the order in which `range` happens to visit the map.
* Calls the controller makes on a task (`Start`, `Cancel`) and its log lines are
  collected in a list of `Call`s, in the order they are made.
* What a call of `Cancel()` made by the controller does, return or panic, is
  given from outside for each method call; a panic ends the method at once.
* The controller's mutex makes every method atomic with respect to the others,
  so each method is a function from the controller before to the controller after.
* `sync.Once` is a flag that is set by the first `Do`, also when the body panics.
* A channel is `nil`, open or closed; closing a `nil` or a closed channel panics.
-/

namespace Gotask

/-! ## Errors and contexts -/

/-- Go error values: one made by `errors.New` (or handed in from outside), or
one made by `errors.Wrapf` around a cause. -/
inductive Error
  | new (text : String)
  | wrap (cause : Error) (text : String)
  deriving DecidableEq, Repr

/-- The two values `Context.Err()` can take once the context is done. -/
inductive CtxErr
  | canceled
  | deadlineExceeded
  deriving DecidableEq, Repr

/-- A `context.Context` as seen at the moment it is derived: its `Deadline()`
(instants are nanoseconds) and its `Err()` (`none` while the context is live). -/
structure Context where
  deadline : Option Int
  err : Option CtxErr
  deriving DecidableEq, Repr

/-- Go's `context.Background()`: never done, no deadline. -/
def Background : Context := { deadline := none, err := none }

/-- Go's `context.WithCancel(parent)`: the child has the parent's deadline and
is done from the start exactly when the parent is. -/
def WithCancel (parent : Context) : Context :=
  { deadline := parent.deadline, err := parent.err }

/-- Go's `context.WithDeadline(parent, d)`, with `clock` the instant read by
`time.Until(d)`: when the parent's deadline is sooner the result is
`WithCancel(parent)`; otherwise the child has deadline `d`, inherits a done
parent's error, and is cancelled with `DeadlineExceeded` at once when
`d - clock <= 0`. -/
def WithDeadline (parent : Context) (d : Int) (clock : Int) : Context :=
  match parent.deadline with
  | some cur =>
    if cur < d then WithCancel parent
    else
      { deadline := some d,
        err := match parent.err with
          | some e => some e
          | none => if d - clock ≤ 0 then some CtxErr.deadlineExceeded else none }
  | none =>
    { deadline := some d,
      err := match parent.err with
        | some e => some e
        | none => if d - clock ≤ 0 then some CtxErr.deadlineExceeded else none }

/-- The two clock readings made inside `context.WithTimeout`: `now` is
`time.Now()`, and `elapsed` is the time that passed until `time.Until` reads
the (monotonic) clock again. -/
structure Clock where
  now : Int
  elapsed : Nat
  deriving DecidableEq, Repr

/-- Go's `context.WithTimeout(parent, timeout)`, which is
`WithDeadline(parent, time.Now().Add(timeout))`. -/
def WithTimeout (parent : Context) (timeout : Int) (clk : Clock) : Context :=
  WithDeadline parent (clk.now + timeout) (clk.now + clk.elapsed)

/-! ## task.go -/

/-- The `TaskReference` interface: `GroupID()` and `TaskID()`. -/
structure TaskReference where
  GroupID : String
  TaskID : String
  deriving DecidableEq, Repr

/-- A value of the `Task` interface. `name` identifies the object, `Start` is
what its `Start(ctx)` returns (`none` is Go's nil error), `asTaskReference` is
the result of the type assertion `task.(TaskReference)` and `asCancellable`
tells whether the type assertion `task.(Cancellable)` succeeds. -/
structure Task where
  name : String
  Start : Context → Option Error
  asTaskReference : Option TaskReference
  asCancellable : Bool

/-! ## task_controller.go -/

/-- A Go `map[string]V`. -/
abbrev GoMap (V : Type) : Type := AList (fun _ : String => V)

/-- What the controller does to the outside: method calls on tasks and log lines. -/
inductive Call
  | start (task : Task) (ctx : Context)
  | cancel (task : Task)
  | logPrintf (text : String)

/-- The `TaskController` struct. `ctx` is the root scope, `cancelFn` tells
whether the field `cancelFn` is non-nil; the mutex `mu` is what makes the
methods below atomic. -/
structure TaskController where
  ctx : Context
  cancelFn : Bool
  taskTimeout : Int
  taskGroupMap : GoMap (GoMap Task)

/-- The result of a controller method: the value it returns, the controller
afterwards and the calls it made. -/
structure Outcome (α : Type) where
  ret : α
  c : TaskController
  calls : List Call

/-- The constructor `NewTaskController()`: a root scope derived from the background scope, an
empty registry, and `taskTimeout` left at its zero value. -/
def NewTaskController : TaskController :=
  { ctx := WithCancel Background,
    cancelFn := true,
    taskTimeout := 0,
    taskGroupMap := ∅ }

/-- The method `TaskController.SubmitWithTimeout(task, timeout)`: derive the
child scope, call `Start`, return its error if there is one; otherwise log and
return for a task without reference, and store the task at
`taskGroupMap[groupID][taskID]` for a task with one. -/
def TaskController.SubmitWithTimeout (c : TaskController) (task : Task) (timeout : Int)
    (clk : Clock) : Outcome (Option Error) :=
  let childCtx := WithTimeout c.ctx timeout clk
  match task.Start childCtx with
  | some err => { ret := some err, c := c, calls := [Call.start task childCtx] }
  | none =>
    match task.asTaskReference with
    | none =>
      { ret := none, c := c,
        calls := [Call.start task childCtx,
          Call.logPrintf "task unimplements TaskReference so that cannot be traced by TaskController"] }
    | some taskReference =>
      let groupID := taskReference.GroupID
      let taskMap : GoMap Task :=
        match c.taskGroupMap.lookup groupID with
        | none => ∅
        | some m => m
      { ret := none,
        c := { c with
          taskGroupMap := c.taskGroupMap.insert groupID (taskMap.insert taskReference.TaskID task) },
        calls := [Call.start task childCtx] }

/-- The method `TaskController.Submit(task)`: `SubmitWithTimeout` with the field
`taskTimeout`. -/
def TaskController.Submit (c : TaskController) (task : Task) (clk : Clock) :
    Outcome (Option Error) :=
  c.SubmitWithTimeout task c.taskTimeout clk

/-- The method `TaskController.Cancel()`: cancels the root scope when `cancelFn` is set. -/
def TaskController.Cancel (c : TaskController) : TaskController :=
  if c.cancelFn then
    { c with ctx := { c.ctx with err := match c.ctx.err with
                                          | some e => some e
                                          | none => some CtxErr.canceled } }
  else c

/-- The statement `delete(c.taskGroupMap[groupID], k)`: a no-op on a nil inner
map, otherwise the inner map of `groupID` loses `k`. -/
def deleteTask (m : GoMap (GoMap Task)) (groupID k : String) : GoMap (GoMap Task) :=
  match m.lookup groupID with
  | none => m
  | some inner => m.insert groupID (inner.erase k)

/-- What the calls of `Cancel()` made during one controller method do:
`cancel k v` is `none` when the call on the task `v` stored under the task id
`k` returns, and the panic value when that call panics. -/
abbrev CancelFn : Type := String → Task → Option String

/-- The result of `CancelGroup` or `CancelTask`: the controller afterwards, the
calls made, and the panic that ended the method, if one did. The deferred
`c.mu.Unlock()` runs in either case. -/
structure CancelOutcome where
  c : TaskController
  calls : List Call
  panic : Option String

/-- The loop `for k, v := range taskMap` of `CancelGroup` over the entries still
to visit: a cancellable task is cancelled, and a panic out of `Cancel()` ends
the method before the `delete`; otherwise the entry is deleted and the loop
goes on. -/
def cancelGroupLoop (cancel : CancelFn) (groupID : String) :
    List (Sigma (fun _ : String => Task)) → TaskController → List Call → CancelOutcome
  | [], c, calls => { c := c, calls := calls, panic := none }
  | e :: rest, c, calls =>
    if e.2.asCancellable then
      match cancel e.1 e.2 with
      | some msg => { c := c, calls := calls ++ [Call.cancel e.2], panic := some msg }
      | none =>
        cancelGroupLoop cancel groupID rest
          { c with taskGroupMap := deleteTask c.taskGroupMap groupID e.1 }
          (calls ++ [Call.cancel e.2])
    else
      cancelGroupLoop cancel groupID rest
        { c with taskGroupMap := deleteTask c.taskGroupMap groupID e.1 } calls

/-- The method `TaskController.CancelGroup(groupID)`: return on a nil inner map,
otherwise loop over the entries of the inner map. -/
def TaskController.CancelGroup (c : TaskController) (groupID : String) (cancel : CancelFn) :
    CancelOutcome :=
  match c.taskGroupMap.lookup groupID with
  | none => { c := c, calls := [], panic := none }
  | some taskMap => cancelGroupLoop cancel groupID taskMap.entries c []

/-- The method `TaskController.CancelTask(ref)`: return when the group or the
task id is absent; otherwise cancel the task if it is cancellable, where a
panic out of `Cancel()` ends the method before the `delete`, and delete its
entry. -/
def TaskController.CancelTask (c : TaskController) (ref : TaskReference) (cancel : CancelFn) :
    CancelOutcome :=
  let groupID := ref.GroupID
  match c.taskGroupMap.lookup groupID with
  | none => { c := c, calls := [], panic := none }
  | some taskMap =>
    let taskID := ref.TaskID
    match taskMap.lookup taskID with
    | none => { c := c, calls := [], panic := none }
    | some task =>
      if task.asCancellable then
        match cancel taskID task with
        | some msg => { c := c, calls := [Call.cancel task], panic := some msg }
        | none =>
          { c := { c with taskGroupMap := deleteTask c.taskGroupMap groupID taskID },
            calls := [Call.cancel task], panic := none }
      else
        { c := { c with taskGroupMap := deleteTask c.taskGroupMap groupID taskID },
          calls := [], panic := none }

/-- The two-level lookup `m[groupID][taskID]`, with `none` for an absent group
or an absent task id. -/
def lookupTask (m : GoMap (GoMap Task)) (groupID taskID : String) : Option Task :=
  match m.lookup groupID with
  | none => none
  | some taskMap => taskMap.lookup taskID

/-- The task registered at `(groupID, taskID)`, if any: `c.taskGroupMap[groupID][taskID]`. -/
def TaskController.registered (c : TaskController) (groupID taskID : String) : Option Task :=
  lookupTask c.taskGroupMap groupID taskID

/-- The tasks registered under `groupID`, in the order `range` visits them. -/
def TaskController.groupTasks (c : TaskController) (groupID : String) : List Task :=
  match c.taskGroupMap.lookup groupID with
  | none => []
  | some taskMap => taskMap.entries.map (fun e => e.2)

/-! ## task_exec.go -/

/-- The state of the channel `doneCh`: the nil channel, a channel created by
`make` and not closed yet, or a closed channel. -/
inductive Chan
  | nil
  | made
  | closed
  deriving DecidableEq, Repr

/-- The builtin `close(ch)`: the channel afterwards, or the panic it raises. -/
def Chan.close : Chan → Except String Chan
  | Chan.nil => Except.error "close of nil channel"
  | Chan.made => Except.ok Chan.closed
  | Chan.closed => Except.error "close of closed channel"

/-- An `io.WriteCloser` supplied by the caller: what its `Close()` returns and
how often `Close()` has been called on it. -/
structure Sink where
  closeErr : Option Error
  closeCalls : Nat
  deriving DecidableEq, Repr

/-- The `ExecTask` struct, followed by a record of what the task has done to
the outside. `cancelFunc` tells whether the field is non-nil, `startOnce` and
`finishOnce` whether the gate has fired, and a close hook is the name of a
caller-supplied `func()` (`none` is a nil hook).

The record: `launchAttempts` counts calls of `cmd.Start()`, `launched` those
that returned nil, `waiting` tells whether the background goroutine is still
blocked in `cmd.Wait()`, `cancelCalls` counts calls of `t.cancelFunc()`,
`closes` counts executions of `close(t.doneCh)` that did not panic, `errWrites`
counts executions of `t.doneErr = processErr`, `hooksRun` lists the hooks run
and `logs` the errors logged. -/
structure ExecTask where
  ctx : Option Context
  cancelFunc : Bool
  Stdout : Option Sink
  Stderr : Option Sink
  closeHooks : List (Option String)
  startOnce : Bool
  finishOnce : Bool
  doneCh : Chan
  doneErr : Option Error
  taskID : String
  groupID : String
  execName : String
  execArgv : List String
  launchAttempts : Nat
  launched : Nat
  waiting : Bool
  cancelCalls : Nat
  closes : Nat
  errWrites : Nat
  hooksRun : List String
  logs : List Error
  deriving DecidableEq, Repr

/-- The result of a method of `ExecTask`: the task afterwards, the error the
method returns (`none` is nil, also for a method without result) and the
panic that ended it, if one did. -/
structure ExecResult where
  task : ExecTask
  ret : Option Error
  panic : Option String
  deriving DecidableEq, Repr

/-- A struct literal of `ExecTask`: the caller chooses the identity, the
command and the sinks; the gates, the channel, the scope and the recorded
error have their zero values and nothing has happened yet. -/
def ExecTask.fresh (taskID groupID execName : String) (execArgv : List String)
    (Stdout Stderr : Option Sink) : ExecTask :=
  { ctx := none, cancelFunc := false, Stdout := Stdout, Stderr := Stderr,
    closeHooks := [], startOnce := false, finishOnce := false,
    doneCh := Chan.nil, doneErr := none,
    taskID := taskID, groupID := groupID, execName := execName, execArgv := execArgv,
    launchAttempts := 0, launched := 0, waiting := false, cancelCalls := 0,
    closes := 0, errWrites := 0, hooksRun := [], logs := [] }

/-- The method `ExecTask.AddCloseHook(fn)`. -/
def ExecTask.AddCloseHook (t : ExecTask) (fn : Option String) : ExecTask :=
  { t with closeHooks := t.closeHooks ++ [fn] }

/-- The method `ExecTask.TaskID()`. -/
def ExecTask.TaskID (t : ExecTask) : String := t.taskID

/-- The method `ExecTask.GroupID()`. -/
def ExecTask.GroupID (t : ExecTask) : String := t.groupID

/-- The message `fmt` builds for `"start command(name: %s, argv: %v)"`. -/
def startCommandText (execName : String) (execArgv : List String) : String :=
  "start command(name: " ++ execName ++ ", argv: [" ++ " ".intercalate execArgv ++ "])"

/-- The effect of calling `t.cancelFunc()` on the scope `t.ctx`. -/
def cancelScope (ctx : Option Context) : Option Context :=
  match ctx with
  | none => none
  | some c =>
    some { c with err := match c.err with
                          | some e => some e
                          | none => some CtxErr.canceled }

/-- The method `ExecTask.Start(ctx)`, whose body runs under `startOnce`.
`launch` is what `cmd.Start()` returns should it be called: `none` when the
process is launched, the launch error otherwise. -/
def ExecTask.Start (t : ExecTask) (ctx : Context) (launch : Option Error) : ExecResult :=
  if t.startOnce then { task := t, ret := none, panic := none }
  else
    let t1 : ExecTask :=
      { t with startOnce := true, ctx := some (WithCancel ctx), cancelFunc := true,
               launchAttempts := t.launchAttempts + 1 }
    match launch with
    | some serr =>
      { task := t1,
        ret := some (Error.wrap serr (startCommandText t.execName t.execArgv)),
        panic := none }
    | none =>
      { task := { t1 with doneCh := Chan.made, launched := t.launched + 1, waiting := true },
        ret := none, panic := none }

/-- The background goroutine of `Start` at the moment `cmd.Wait()` returns
`processErr`: the natural exit of the process. Nothing happens when no
goroutine is waiting. -/
def ExecTask.processExit (t : ExecTask) (processErr : Option Error) : ExecResult :=
  if t.waiting then
    let t1 : ExecTask := { t with waiting := false }
    if t1.finishOnce then { task := t1, ret := none, panic := none }
    else
      let t2 : ExecTask :=
        { t1 with finishOnce := true, doneErr := processErr, errWrites := t1.errWrites + 1 }
      match t2.doneCh.close with
      | Except.ok ch =>
        { task := { t2 with doneCh := ch, closes := t2.closes + 1 }, ret := none, panic := none }
      | Except.error msg => { task := t2, ret := none, panic := some msg }
  else { task := t, ret := none, panic := none }

/-- What `ExecTask.Wait()` does: the error it returns, or `blocked` while the receive
from `doneCh` cannot proceed. -/
inductive WaitResult
  | returned (err : Option Error)
  | blocked
  deriving DecidableEq, Repr

/-- The method `ExecTask.Wait()`: the not-started error on a nil channel,
otherwise the recorded error once the receive from `doneCh` can proceed. -/
def ExecTask.Wait (t : ExecTask) : WaitResult :=
  if t.doneCh = Chan.nil then WaitResult.returned (some (Error.new "task is not started"))
  else
    match t.doneCh with
    | Chan.closed => WaitResult.returned t.doneErr
    | _ => WaitResult.blocked

/-- The method `ExecTask.Cancel()`, whose body runs under `finishOnce`: when
`cancelFunc` is set, call it and close `doneCh`. -/
def ExecTask.Cancel (t : ExecTask) : ExecResult :=
  if t.finishOnce then { task := t, ret := none, panic := none }
  else
    let t1 : ExecTask := { t with finishOnce := true }
    if t1.cancelFunc then
      let t2 : ExecTask := { t1 with ctx := cancelScope t1.ctx, cancelCalls := t1.cancelCalls + 1 }
      match t2.doneCh.close with
      | Except.ok ch =>
        { task := { t2 with doneCh := ch, closes := t2.closes + 1 }, ret := none, panic := none }
      | Except.error msg => { task := t2, ret := none, panic := some msg }
    else { task := t1, ret := none, panic := none }

/-- Closing one output sink in `Close`: a nil sink is skipped, a failure of
`Close()` is logged under `what`. -/
def closeSink (sink : Option Sink) (what : String) (logs : List Error) :
    Option Sink × List Error :=
  match sink with
  | none => (none, logs)
  | some s =>
    (some { s with closeCalls := s.closeCalls + 1 },
     match s.closeErr with
     | some err => logs ++ [Error.wrap err what]
     | none => logs)

/-- The method `ExecTask.Close()`: the hooks in registration order (nil hooks skipped),
the two sinks, then `Cancel()`; it returns nil unless `Cancel` panics. -/
def ExecTask.Close (t : ExecTask) : ExecResult :=
  let t1 : ExecTask := { t with hooksRun := t.hooksRun ++ t.closeHooks.reduceOption }
  let out := closeSink t1.Stdout "close task resource (stdout)" t1.logs
  let t2 : ExecTask := { t1 with Stdout := out.1, logs := out.2 }
  let err := closeSink t2.Stderr "close task resource (stderr)" t2.logs
  let t3 : ExecTask := { t2 with Stderr := err.1, logs := err.2 }
  let r := t3.Cancel
  { task := r.task, ret := none, panic := r.panic }

/-- The things that can happen to an `ExecTask`. -/
inductive Op
  | start (ctx : Context) (launch : Option Error)
  | processExit (processErr : Option Error)
  | cancel
  | close
  | addCloseHook (fn : Option String)
  deriving DecidableEq, Repr

/-- One step of the task. -/
def ExecTask.step (t : ExecTask) : Op → ExecResult
  | Op.start ctx launch => t.Start ctx launch
  | Op.processExit processErr => t.processExit processErr
  | Op.cancel => t.Cancel
  | Op.close => t.Close
  | Op.addCloseHook fn => { task := t.AddCloseHook fn, ret := none, panic := none }

/-- The task after a sequence of steps. A step that panics leaves the task as
it was when the panic was raised, and the run goes on from there (the caller
recovered). -/
def ExecTask.run (t : ExecTask) (ops : List Op) : ExecTask :=
  ops.foldl (fun s op => (s.step op).task) t

/-- The panics raised along a sequence of steps, in order. -/
def ExecTask.panics (t : ExecTask) : List Op → List String
  | [] => []
  | op :: ops => (t.step op).panic.toList ++ ExecTask.panics (t.step op).task ops

/-- Tells whether a step is a call of `Start`. -/
def Op.isStart : Op → Bool
  | Op.start _ _ => true
  | _ => false

/-- Tells whether a step is the natural exit of the process. -/
def Op.isExit : Op → Bool
  | Op.processExit _ => true
  | _ => false

/-- Tells whether a step is a call of `Cancel`. -/
def Op.isCancel : Op → Bool
  | Op.cancel => true
  | _ => false

/-- An `ExecTask` in the state `t`, seen through the `Task` interface: its `Start`
returns what `ExecTask.Start` returns in that state (`launch` being what
`cmd.Start()` would return), it has `TaskID()` and `GroupID()`, and it has
`Cancel()`. -/
def ExecTask.toTask (t : ExecTask) (launch : Option Error) : Task :=
  { name := t.taskID,
    Start := fun ctx => (t.Start ctx launch).ret,
    asTaskReference := some { GroupID := t.GroupID, TaskID := t.TaskID },
    asCancellable := true }

/-- What a call of `Cancel()` does on an `ExecTask` in the state `t`. -/
def ExecTask.cancelOutcome (t : ExecTask) : CancelFn :=
  fun _ _ => t.Cancel.panic

/-- The reference behaviour of `CancelTask`, following the specification's
words, on the registry seen as a lookup table: no entry at
`(ref.GroupID, ref.TaskID)` means nothing changes and nothing is cancelled;
otherwise the task stored there is cancelled once if it is cancellable and
exactly that entry is removed. -/
def cancelTaskReference (R : String → String → Option Task) (ref : TaskReference) :
    (String → String → Option Task) × List Call :=
  match R ref.GroupID ref.TaskID with
  | none => (R, [])
  | some task =>
    (fun g k => if g = ref.GroupID ∧ k = ref.TaskID then none else R g k,
     if task.asCancellable then [Call.cancel task] else [])

/-! ## Concrete inputs -/

/-- A cancellable task with reference `("g", "1")` whose `Start` succeeds. -/
def taskA : Task :=
  { name := "A", Start := fun _ => none,
    asTaskReference := some { GroupID := "g", TaskID := "1" }, asCancellable := true }

/-- A cancellable task with reference `("g", "2")` whose `Start` succeeds. -/
def taskB : Task :=
  { name := "B", Start := fun _ => none,
    asTaskReference := some { GroupID := "g", TaskID := "2" }, asCancellable := true }

/-- A task whose `Start` fails. -/
def taskFailing : Task :=
  { name := "F", Start := fun _ => some (Error.new "boom"),
    asTaskReference := some { GroupID := "g", TaskID := "3" }, asCancellable := true }

/-- A clock reading: submission at instant 1000, 5 ns until the second reading. -/
def clockDemo : Clock := { now := 1000, elapsed := 5 }

/-- The controller after `Submit(taskA)` and `Submit(taskB)`. -/
def controllerAB : TaskController :=
  ((NewTaskController.Submit taskA clockDemo).c.Submit taskB clockDemo).c

/-- The process task `sleep 1` with identity `("g", "1")` and no sinks. -/
def execDemo : ExecTask := ExecTask.fresh "1" "g" "sleep" ["1"] none none

/-- The error `cmd.Start()` returns under a scope that is already done. -/
def launchErrDemo : Error := Error.new "context deadline exceeded"

/-- The process task `execDemo` after a first `Start` whose launch failed. -/
def execFailed : ExecTask :=
  (execDemo.Start (WithTimeout NewTaskController.ctx 0 clockDemo) (some launchErrDemo)).task

/-- The controller after `Submit` of the process task twice: the first `Start`
fails to launch, so nothing is registered; the second `Start` returns nil, so
the task is registered at `("g", "1")`. -/
def controllerFailedExec : TaskController :=
  ((NewTaskController.Submit (execDemo.toTask (some launchErrDemo)) clockDemo).c.Submit
    (execFailed.toTask none) clockDemo).c

/-- Every call of `Cancel()` returns. -/
def cancelReturns : CancelFn := fun _ _ => none

/-! ## The registry -/

theorem lookup_deleteTask_same (m : GoMap (GoMap Task)) (g k : String) (inner : GoMap Task)
    (h : m.lookup g = some inner) :
    (deleteTask m g k).lookup g = some (inner.erase k) := by
  simp [deleteTask, h, AList.lookup_insert]

theorem lookup_deleteTask_ne (m : GoMap (GoMap Task)) (g g' k : String) (h : g' ≠ g) :
    (deleteTask m g k).lookup g' = m.lookup g' := by
  unfold deleteTask
  cases hm : m.lookup g with
  | none => rfl
  | some inner => simp [AList.lookup_insert_ne h]

theorem lookup_eraseAll (l : List (Sigma (fun _ : String => Task))) :
    ∀ (m : GoMap Task) (k : String),
      (l.foldl (fun s e => s.erase e.1) m).lookup k = if k ∈ l.keys then none else m.lookup k := by
  induction l with
  | nil => intro m k; simp
  | cons e l ih =>
    intro m k
    rw [List.foldl_cons, ih]
    by_cases hk : k = e.1
    · subst hk
      simp [AList.lookup_erase]
    · by_cases hl : k ∈ l.keys
      · simp [hl]
      · simp [hl, hk, AList.lookup_erase_ne hk]

theorem entries_eq_nil_of_lookup_none (m : GoMap Task) (h : ∀ k, m.lookup k = none) :
    m.entries = [] := by
  cases hm : m.entries with
  | nil => rfl
  | cons e l =>
    exfalso
    have hk : e.1 ∈ m := by
      rw [AList.mem_keys, AList.keys, hm]
      simp [List.keys]
    exact (AList.lookup_eq_none.mp (h e.1)) hk

theorem lookupTask_deleteTask (m : GoMap (GoMap Task)) (g k : String) (inner : GoMap Task)
    (h : m.lookup g = some inner) (g' k' : String) :
    lookupTask (deleteTask m g k) g' k'
      = if g' = g ∧ k' = k then none else lookupTask m g' k' := by
  unfold lookupTask
  by_cases hg : g' = g
  · subst hg
    simp only [lookup_deleteTask_same _ _ _ _ h, h, true_and]
    by_cases hk : k' = k
    · subst hk; simp [AList.lookup_erase]
    · simp [hk, AList.lookup_erase_ne hk]
  · simp [hg, lookup_deleteTask_ne _ _ _ _ hg]

theorem lookupTask_insert (m : GoMap (GoMap Task)) (task : Task) (gid tid g k : String) :
    lookupTask
      (m.insert gid
        (AList.insert tid task
          (match m.lookup gid with
            | none => (∅ : GoMap Task)
            | some inner => inner))) g k
      = if g = gid ∧ k = tid then some task else lookupTask m g k := by
  unfold lookupTask
  by_cases hg : g = gid
  · subst hg
    simp only [AList.lookup_insert, true_and]
    by_cases hk : k = tid
    · subst hk; simp [AList.lookup_insert]
    · simp only [hk, if_false, AList.lookup_insert_ne hk]
      cases hm : m.lookup g with
      | none => simp
      | some inner => simp
  · simp [hg, AList.lookup_insert_ne hg]

theorem cancelGroupLoop_returns (cancel : CancelFn) (g : String)
    (l : List (Sigma (fun _ : String => Task))) :
    ∀ (c : TaskController) (calls : List Call) (inner : GoMap Task),
      c.taskGroupMap.lookup g = some inner →
      (∀ e ∈ l, e.2.asCancellable = true → cancel e.1 e.2 = none) →
      (cancelGroupLoop cancel g l c calls).panic = none
      ∧ (cancelGroupLoop cancel g l c calls).c.taskGroupMap.lookup g
          = some (l.foldl (fun s e => s.erase e.1) inner)
      ∧ (∀ g', g' ≠ g →
          (cancelGroupLoop cancel g l c calls).c.taskGroupMap.lookup g'
            = c.taskGroupMap.lookup g')
      ∧ (cancelGroupLoop cancel g l c calls).calls
          = calls ++ ((l.map (fun e => e.2)).filter (fun t => t.asCancellable)).map Call.cancel
      ∧ (cancelGroupLoop cancel g l c calls).c.ctx = c.ctx
      ∧ (cancelGroupLoop cancel g l c calls).c.cancelFn = c.cancelFn
      ∧ (cancelGroupLoop cancel g l c calls).c.taskTimeout = c.taskTimeout := by
  induction l with
  | nil => intro c calls inner h _; simp [cancelGroupLoop, h]
  | cons e l ih =>
    intro c calls inner h hret
    have hstep : (deleteTask c.taskGroupMap g e.1).lookup g = some (inner.erase e.1) :=
      lookup_deleteTask_same _ _ _ _ h
    have hrest : ∀ e' ∈ l, e'.2.asCancellable = true → cancel e'.1 e'.2 = none :=
      fun e' he' => hret e' (List.mem_cons_of_mem _ he')
    by_cases hc : e.2.asCancellable = true
    · have hnone : cancel e.1 e.2 = none := hret e (List.mem_cons_self _ _) hc
      obtain ⟨h0, h1, h2, h3, h4, h5, h6⟩ :=
        ih { c with taskGroupMap := deleteTask c.taskGroupMap g e.1 }
          (calls ++ [Call.cancel e.2]) (inner.erase e.1) hstep hrest
      have hunf : cancelGroupLoop cancel g (e :: l) c calls
          = cancelGroupLoop cancel g l
              { c with taskGroupMap := deleteTask c.taskGroupMap g e.1 }
              (calls ++ [Call.cancel e.2]) := by
        simp [cancelGroupLoop, hc, hnone]
      rw [hunf]
      refine ⟨h0, ?_, ?_, ?_, h4, h5, h6⟩
      · simpa using h1
      · intro g' hg
        rw [h2 g' hg]
        exact lookup_deleteTask_ne _ _ _ _ hg
      · rw [h3]; simp [hc]
    · obtain ⟨h0, h1, h2, h3, h4, h5, h6⟩ :=
        ih { c with taskGroupMap := deleteTask c.taskGroupMap g e.1 }
          calls (inner.erase e.1) hstep hrest
      have hunf : cancelGroupLoop cancel g (e :: l) c calls
          = cancelGroupLoop cancel g l
              { c with taskGroupMap := deleteTask c.taskGroupMap g e.1 } calls := by
        simp [cancelGroupLoop, hc]
      rw [hunf]
      refine ⟨h0, ?_, ?_, ?_, h4, h5, h6⟩
      · simpa using h1
      · intro g' hg
        rw [h2 g' hg]
        exact lookup_deleteTask_ne _ _ _ _ hg
      · rw [h3]; simp [hc]

theorem cancelGroup_noop (c : TaskController) (g : String) (cancel : CancelFn)
    (h : ∀ k, c.registered g k = none) :
    (c.CancelGroup g cancel).c = c ∧ (c.CancelGroup g cancel).calls = []
    ∧ (c.CancelGroup g cancel).panic = none := by
  unfold TaskController.CancelGroup
  cases hm : c.taskGroupMap.lookup g with
  | none => exact ⟨rfl, rfl, rfl⟩
  | some taskMap =>
    have hnil : taskMap.entries = [] := by
      apply entries_eq_nil_of_lookup_none
      intro k
      have := h k
      simpa [TaskController.registered, lookupTask, hm] using this
    simp [hnil, cancelGroupLoop]

/-- C1, as amended. Let every call of `Cancel()` that `CancelGroup(g)` makes
return. Then `CancelGroup(g)` does not panic; the calls it makes are, up to
the order of the visit, one `Cancel` for each cancellable task stored under
`g` and nothing else; afterwards no task is registered under `g`, every other
group has the inner map it had, and the other fields of the controller are as
before. When no task is registered under `g` the controller is unchanged and
nothing is called, so a second `CancelGroup(g)` right after the first changes
nothing, calls nothing and does not panic. A task is cancelled exactly when it
is stored under `g` and cancellable, and when the tasks stored under `g` are
distinct no task is cancelled twice. -/
theorem CancelGroup_evicts_when_Cancel_returns (c : TaskController) (g : String)
    (cancel : CancelFn)
    (hret : ∀ k t, c.registered g k = some t → t.asCancellable = true → cancel k t = none) :
    (c.CancelGroup g cancel).panic = none
    ∧ List.Perm (c.CancelGroup g cancel).calls
        (((c.groupTasks g).filter (fun t => t.asCancellable)).map Call.cancel)
    ∧ (∀ k, (c.CancelGroup g cancel).c.registered g k = none)
    ∧ (∀ g', g' ≠ g →
        (c.CancelGroup g cancel).c.taskGroupMap.lookup g' = c.taskGroupMap.lookup g')
    ∧ ((c.CancelGroup g cancel).c.ctx = c.ctx
        ∧ (c.CancelGroup g cancel).c.cancelFn = c.cancelFn
        ∧ (c.CancelGroup g cancel).c.taskTimeout = c.taskTimeout)
    ∧ ((∀ k, c.registered g k = none) →
        (c.CancelGroup g cancel).c = c ∧ (c.CancelGroup g cancel).calls = [])
    ∧ (∀ again : CancelFn,
        ((c.CancelGroup g cancel).c.CancelGroup g again).c = (c.CancelGroup g cancel).c
        ∧ ((c.CancelGroup g cancel).c.CancelGroup g again).calls = []
        ∧ ((c.CancelGroup g cancel).c.CancelGroup g again).panic = none)
    ∧ (∀ t, Call.cancel t ∈ (c.CancelGroup g cancel).calls
        ↔ (t ∈ c.groupTasks g ∧ t.asCancellable = true))
    ∧ ((c.groupTasks g).Nodup → (c.CancelGroup g cancel).calls.Nodup) := by
  have hloop : ∀ taskMap : GoMap Task, c.taskGroupMap.lookup g = some taskMap →
      ∀ e ∈ taskMap.entries, e.2.asCancellable = true → cancel e.1 e.2 = none := by
    intro taskMap hm e he hc
    apply hret e.1 e.2 _ hc
    have hl : e.2 ∈ taskMap.lookup e.1 := AList.mem_lookup_iff.mpr he
    simpa [TaskController.registered, lookupTask, hm] using hl
  have hevict : ∀ k, (c.CancelGroup g cancel).c.registered g k = none := by
    intro k
    unfold TaskController.CancelGroup TaskController.registered lookupTask
    cases hm : c.taskGroupMap.lookup g with
    | none => simp [hm]
    | some taskMap =>
      have h1 := (cancelGroupLoop_returns cancel g taskMap.entries c [] taskMap hm
        (hloop taskMap hm)).2.1
      simp only [h1, lookup_eraseAll]
      by_cases hk : k ∈ taskMap.entries.keys
      · simp [hk]
      · have : taskMap.lookup k = none := AList.lookup_eq_none.mpr hk
        simp [hk, this]
  have hcalls : (c.CancelGroup g cancel).calls
      = ((c.groupTasks g).filter (fun t => t.asCancellable)).map Call.cancel := by
    unfold TaskController.CancelGroup TaskController.groupTasks
    cases hm : c.taskGroupMap.lookup g with
    | none => simp
    | some taskMap =>
      have h3 := (cancelGroupLoop_returns cancel g taskMap.entries c [] taskMap hm
        (hloop taskMap hm)).2.2.2.1
      simpa using h3
  have hinj : Function.Injective Call.cancel := by
    intro a b hab
    cases hab
    rfl
  refine ⟨?_, ?_, hevict, ?_, ?_, fun h => ⟨(cancelGroup_noop c g cancel h).1,
    (cancelGroup_noop c g cancel h).2.1⟩, fun again => cancelGroup_noop _ g again hevict,
    ?_, ?_⟩
  · unfold TaskController.CancelGroup
    cases hm : c.taskGroupMap.lookup g with
    | none => rfl
    | some taskMap =>
      exact (cancelGroupLoop_returns cancel g taskMap.entries c [] taskMap hm
        (hloop taskMap hm)).1
  · rw [hcalls]
  · intro g' hg
    unfold TaskController.CancelGroup
    cases hm : c.taskGroupMap.lookup g with
    | none => rfl
    | some taskMap =>
      exact (cancelGroupLoop_returns cancel g taskMap.entries c [] taskMap hm
        (hloop taskMap hm)).2.2.1 g' hg
  · unfold TaskController.CancelGroup
    cases hm : c.taskGroupMap.lookup g with
    | none => exact ⟨rfl, rfl, rfl⟩
    | some taskMap =>
      exact (cancelGroupLoop_returns cancel g taskMap.entries c [] taskMap hm
        (hloop taskMap hm)).2.2.2.2
  · intro t
    rw [hcalls]
    simp [List.mem_map, List.mem_filter]
  · intro hnd
    rw [hcalls]
    exact (hnd.filter _).map hinj

theorem cancelTask_noop (c : TaskController) (ref : TaskReference) (cancel : CancelFn)
    (h : c.registered ref.GroupID ref.TaskID = none) :
    (c.CancelTask ref cancel).c = c ∧ (c.CancelTask ref cancel).calls = []
    ∧ (c.CancelTask ref cancel).panic = none := by
  unfold TaskController.registered lookupTask at h
  cases hm : c.taskGroupMap.lookup ref.GroupID with
  | none => simp [TaskController.CancelTask, hm]
  | some taskMap =>
    rw [hm] at h
    simp only at h
    simp [TaskController.CancelTask, hm, h]

theorem cancelTask_hit (c : TaskController) (ref : TaskReference) (cancel : CancelFn)
    (task : Task) (h : c.registered ref.GroupID ref.TaskID = some task)
    (hret : task.asCancellable = true → cancel ref.TaskID task = none) :
    (c.CancelTask ref cancel).panic = none
    ∧ (∀ g k, (c.CancelTask ref cancel).c.registered g k
        = if g = ref.GroupID ∧ k = ref.TaskID then none else c.registered g k)
    ∧ (c.CancelTask ref cancel).calls
        = (if task.asCancellable then [Call.cancel task] else [])
    ∧ (∀ g, g ≠ ref.GroupID →
        (c.CancelTask ref cancel).c.taskGroupMap.lookup g = c.taskGroupMap.lookup g) := by
  unfold TaskController.registered lookupTask at h
  cases hm : c.taskGroupMap.lookup ref.GroupID with
  | none => rw [hm] at h; cases h
  | some taskMap =>
    rw [hm] at h
    simp only at h
    have hdel := lookupTask_deleteTask c.taskGroupMap ref.GroupID ref.TaskID taskMap hm
    by_cases hc : task.asCancellable = true
    · have hnone := hret hc
      refine ⟨?_, ?_, ?_, ?_⟩
      · simp [TaskController.CancelTask, hm, h, hc, hnone]
      · intro g k
        simpa [TaskController.CancelTask, TaskController.registered, hm, h, hc, hnone]
          using hdel g k
      · simp [TaskController.CancelTask, hm, h, hc, hnone]
      · intro g hg
        simp [TaskController.CancelTask, hm, h, hc, hnone, lookup_deleteTask_ne _ _ _ _ hg]
    · refine ⟨?_, ?_, ?_, ?_⟩
      · simp [TaskController.CancelTask, hm, h, hc]
      · intro g k
        simpa [TaskController.CancelTask, TaskController.registered, hm, h, hc]
          using hdel g k
      · simp [TaskController.CancelTask, hm, h, hc]
      · intro g hg
        simp [TaskController.CancelTask, hm, h, hc, lookup_deleteTask_ne _ _ _ _ hg]

/-- C2, as amended. Let the call of `Cancel()` that `CancelTask(ref)` makes, if
it makes one, return. Then `CancelTask(ref)` does not panic and refines the
reference behaviour `cancelTaskReference`: seen as a lookup table the
registry afterwards is the one the reference gives, and the calls made are
the ones the reference gives. When nothing is registered at the key the
controller is literally unchanged; the inner maps of the other groups are not
touched; a second `CancelTask(ref)` changes nothing, calls nothing and does
not panic; and after a successful `Submit` of a task whose reference is `ref`
and whose `Cancel()` returns, `CancelTask(ref)` cancels exactly that task,
once, if it is cancellable, and removes its entry. -/
theorem CancelTask_refines_reference_when_Cancel_returns (c : TaskController)
    (ref : TaskReference) (cancel : CancelFn)
    (hret : ∀ t, c.registered ref.GroupID ref.TaskID = some t → t.asCancellable = true →
      cancel ref.TaskID t = none) :
    (c.CancelTask ref cancel).panic = none
    ∧ (c.CancelTask ref cancel).c.registered = (cancelTaskReference c.registered ref).1
    ∧ (c.CancelTask ref cancel).calls = (cancelTaskReference c.registered ref).2
    ∧ (c.registered ref.GroupID ref.TaskID = none → (c.CancelTask ref cancel).c = c)
    ∧ (∀ g, g ≠ ref.GroupID →
        (c.CancelTask ref cancel).c.taskGroupMap.lookup g = c.taskGroupMap.lookup g)
    ∧ (∀ again : CancelFn,
        ((c.CancelTask ref cancel).c.CancelTask ref again).c = (c.CancelTask ref cancel).c
        ∧ ((c.CancelTask ref cancel).c.CancelTask ref again).calls = []
        ∧ ((c.CancelTask ref cancel).c.CancelTask ref again).panic = none)
    ∧ (∀ (task : Task) (clk : Clock),
        task.asTaskReference = some ref →
        task.Start (WithTimeout c.ctx c.taskTimeout clk) = none →
        (task.asCancellable = true → cancel ref.TaskID task = none) →
        ((c.Submit task clk).c.CancelTask ref cancel).panic = none
        ∧ ((c.Submit task clk).c.CancelTask ref cancel).calls
          = (if task.asCancellable then [Call.cancel task] else [])
        ∧ ((c.Submit task clk).c.CancelTask ref cancel).c.registered
            ref.GroupID ref.TaskID = none) := by
  have hgone : (c.CancelTask ref cancel).c.registered ref.GroupID ref.TaskID = none := by
    cases h : c.registered ref.GroupID ref.TaskID with
    | none => rw [(cancelTask_noop c ref cancel h).1]; exact h
    | some task => rw [(cancelTask_hit c ref cancel task h (hret task h)).2.1]; simp
  refine ⟨?_, ?_, ?_, fun h => (cancelTask_noop c ref cancel h).1, ?_,
    fun again => cancelTask_noop _ ref again hgone, ?_⟩
  · cases h : c.registered ref.GroupID ref.TaskID with
    | none => exact (cancelTask_noop c ref cancel h).2.2
    | some task => exact (cancelTask_hit c ref cancel task h (hret task h)).1
  · cases h : c.registered ref.GroupID ref.TaskID with
    | none => simp [cancelTaskReference, h, (cancelTask_noop c ref cancel h).1]
    | some task =>
      funext g k
      simp [cancelTaskReference, h, (cancelTask_hit c ref cancel task h (hret task h)).2.1]
  · cases h : c.registered ref.GroupID ref.TaskID with
    | none => simp [cancelTaskReference, h, (cancelTask_noop c ref cancel h).2.1]
    | some task =>
      simp [cancelTaskReference, h, (cancelTask_hit c ref cancel task h (hret task h)).2.2.1]
  · intro g hg
    cases h : c.registered ref.GroupID ref.TaskID with
    | none => rw [(cancelTask_noop c ref cancel h).1]
    | some task => exact (cancelTask_hit c ref cancel task h (hret task h)).2.2.2 g hg
  · intro task clk href hstart hcancel
    have hreg : (c.Submit task clk).c.registered ref.GroupID ref.TaskID = some task := by
      simp only [TaskController.Submit, TaskController.SubmitWithTimeout, hstart, href,
        TaskController.registered]
      rw [lookupTask_insert]
      simp
    have hh := cancelTask_hit _ ref cancel task hreg hcancel
    refine ⟨hh.1, hh.2.2.1, ?_⟩
    rw [hh.2.1]
    simp

/-- C3. When `Start` returns nil, `SubmitWithTimeout` returns nil and calls
`Start` once, with the scope derived from the root by `WithTimeout`. For a
task with a reference `(g, id)` this is the only call, the registry afterwards
has an inner map for `g`, maps `(g, id)` to the task and agrees with the
registry before on every other key. For a task without a reference the only
other call is the log line and the controller is unchanged. -/
theorem SubmitWithTimeout_registers (c : TaskController) (task : Task) (timeout : Int)
    (clk : Clock) (hstart : task.Start (WithTimeout c.ctx timeout clk) = none) :
    (c.SubmitWithTimeout task timeout clk).ret = none
    ∧ (∀ ref, task.asTaskReference = some ref →
        (c.SubmitWithTimeout task timeout clk).calls
            = [Call.start task (WithTimeout c.ctx timeout clk)]
        ∧ ((c.SubmitWithTimeout task timeout clk).c.taskGroupMap.lookup ref.GroupID).isSome = true
        ∧ (c.SubmitWithTimeout task timeout clk).c.registered ref.GroupID ref.TaskID = some task
        ∧ (∀ g k, ¬(g = ref.GroupID ∧ k = ref.TaskID) →
            (c.SubmitWithTimeout task timeout clk).c.registered g k = c.registered g k)
        ∧ (∀ g, g ≠ ref.GroupID →
            (c.SubmitWithTimeout task timeout clk).c.taskGroupMap.lookup g
              = c.taskGroupMap.lookup g))
    ∧ (task.asTaskReference = none →
        (c.SubmitWithTimeout task timeout clk).c = c
        ∧ (c.SubmitWithTimeout task timeout clk).calls
            = [Call.start task (WithTimeout c.ctx timeout clk),
               Call.logPrintf
                 "task unimplements TaskReference so that cannot be traced by TaskController"]) := by
  refine ⟨?_, ?_, ?_⟩
  · unfold TaskController.SubmitWithTimeout
    simp only [hstart]
    cases task.asTaskReference <;> rfl
  · intro ref href
    simp only [TaskController.SubmitWithTimeout, hstart, href, TaskController.registered]
    refine ⟨trivial, ?_, ?_, ?_, ?_⟩
    · simp [AList.lookup_insert]
    · rw [lookupTask_insert]; simp
    · intro g k hne
      rw [lookupTask_insert]; simp [hne]
    · intro g hg
      simp [AList.lookup_insert_ne hg]
  · intro href
    simp [TaskController.SubmitWithTimeout, hstart, href]

/-- C4. When `Start` returns an error, `SubmitWithTimeout` returns that very
error, leaves the controller as it was (so the task is registered under no
key it was not registered under before), and has made no call but `Start`. -/
theorem SubmitWithTimeout_start_error (c : TaskController) (task : Task) (timeout : Int)
    (clk : Clock) (e : Error) (hstart : task.Start (WithTimeout c.ctx timeout clk) = some e) :
    (c.SubmitWithTimeout task timeout clk).ret = some e
    ∧ (c.SubmitWithTimeout task timeout clk).c = c
    ∧ (c.SubmitWithTimeout task timeout clk).calls
        = [Call.start task (WithTimeout c.ctx timeout clk)] := by
  simp [TaskController.SubmitWithTimeout, hstart]

/-- C9. On a controller built by `NewTaskController`, `Submit` hands `Start` a
scope whose deadline is the instant of submission and which is already done
with `DeadlineExceeded`, whatever the task and whatever the clock. -/
theorem Submit_default_scope_is_expired (task : Task) (clk : Clock) :
    (NewTaskController.Submit task clk).calls.head?
      = some (Call.start task
          { deadline := some clk.now, err := some CtxErr.deadlineExceeded }) := by
  have hctx : WithTimeout NewTaskController.ctx NewTaskController.taskTimeout clk
      = { deadline := some clk.now, err := some CtxErr.deadlineExceeded } := by
    simp [WithTimeout, WithDeadline, NewTaskController, WithCancel, Background]
  simp only [TaskController.Submit, TaskController.SubmitWithTimeout, hctx]
  cases hs : task.Start { deadline := some clk.now, err := some CtxErr.deadlineExceeded } with
  | some e => rfl
  | none => cases hr : task.asTaskReference <;> rfl

/-! ## The process task -/

theorem run_nil (t : ExecTask) : t.run [] = t := rfl

theorem run_cons (t : ExecTask) (op : Op) (ops : List Op) :
    t.run (op :: ops) = (t.step op).task.run ops := rfl

theorem run_append (t : ExecTask) (ops₁ ops₂ : List Op) :
    t.run (ops₁ ++ ops₂) = (t.run ops₁).run ops₂ := by
  simp [ExecTask.run, List.foldl_append]

/-- An invariant of every step carries over to every run. -/
theorem run_induction (P : ExecTask → Prop) (hstep : ∀ t op, P t → P (t.step op).task)
    (ops : List Op) : ∀ t, P t → P (t.run ops) := by
  induction ops with
  | nil => intro t h; exact h
  | cons op ops ih => intro t h; exact ih _ (hstep t op h)

theorem Cancel_of_fired (t : ExecTask) (h : t.finishOnce = true) :
    t.Cancel = { task := t, ret := none, panic := none } := by
  simp [ExecTask.Cancel, h]

/-- No step closes or makes the channel of a task without a launched process. -/
theorem step_keeps_unlaunched (t : ExecTask) (op : Op)
    (h : t.launched = 0 → t.doneCh = Chan.nil) :
    (t.step op).task.launched = 0 → (t.step op).task.doneCh = Chan.nil := by
  cases op with
  | start ctx launch =>
    cases launch <;> by_cases hs : t.startOnce = true <;>
      simp [ExecTask.step, ExecTask.Start, hs] <;> exact h
  | processExit e =>
    by_cases hw : t.waiting = true <;> by_cases hf : t.finishOnce = true <;>
      cases hd : t.doneCh <;>
      simp_all [ExecTask.step, ExecTask.processExit, Chan.close]
  | cancel =>
    by_cases hf : t.finishOnce = true <;> by_cases hc : t.cancelFunc = true <;>
      cases hd : t.doneCh <;>
      simp_all [ExecTask.step, ExecTask.Cancel, Chan.close]
  | close =>
    by_cases hf : t.finishOnce = true <;> by_cases hc : t.cancelFunc = true <;>
      cases hd : t.doneCh <;>
      simp_all [ExecTask.step, ExecTask.Close, ExecTask.Cancel, Chan.close]
  | addCloseHook fn => simpa [ExecTask.step, ExecTask.AddCloseHook] using h

/-- The start-once gate bounds the launch attempts. -/
theorem step_keeps_attempts (t : ExecTask) (op : Op)
    (h : (t.startOnce = false → t.launchAttempts = 0) ∧ t.launchAttempts ≤ 1
      ∧ t.launched ≤ t.launchAttempts) :
    ((t.step op).task.startOnce = false → (t.step op).task.launchAttempts = 0)
    ∧ (t.step op).task.launchAttempts ≤ 1
    ∧ (t.step op).task.launched ≤ (t.step op).task.launchAttempts := by
  obtain ⟨h1, h2, h3⟩ := h
  cases op with
  | start ctx launch =>
    by_cases hs : t.startOnce = true
    · have : t.Start ctx launch = { task := t, ret := none, panic := none } := by
        simp [ExecTask.Start, hs]
      simp only [ExecTask.step, this]
      exact ⟨h1, h2, h3⟩
    · have h0 := h1 (by simpa using hs)
      cases launch <;> simp [ExecTask.step, ExecTask.Start, hs] <;> omega
  | processExit e =>
    by_cases hw : t.waiting = true <;> by_cases hf : t.finishOnce = true <;>
      cases hd : t.doneCh <;>
      simp [ExecTask.step, ExecTask.processExit, Chan.close, hw, hf, hd] <;>
      exact ⟨h1, h2, h3⟩
  | cancel =>
    by_cases hf : t.finishOnce = true <;> by_cases hc : t.cancelFunc = true <;>
      cases hd : t.doneCh <;>
      simp [ExecTask.step, ExecTask.Cancel, Chan.close, hf, hc, hd] <;>
      exact ⟨h1, h2, h3⟩
  | close =>
    by_cases hf : t.finishOnce = true <;> by_cases hc : t.cancelFunc = true <;>
      cases hd : t.doneCh <;>
      simp [ExecTask.step, ExecTask.Close, ExecTask.Cancel, Chan.close, hf, hc, hd] <;>
      exact ⟨h1, h2, h3⟩
  | addCloseHook fn => simpa [ExecTask.step, ExecTask.AddCloseHook] using ⟨h1, h2, h3⟩

theorem Start_of_started (t : ExecTask) (ctx : Context) (launch : Option Error)
    (h : t.startOnce = true) :
    t.Start ctx launch = { task := t, ret := none, panic := none } := by
  simp [ExecTask.Start, h]

theorem startOnce_after_Start (t : ExecTask) (ctx : Context) (launch : Option Error) :
    (t.Start ctx launch).task.startOnce = true := by
  by_cases hs : t.startOnce = true
  · simp [ExecTask.Start, hs]
  · cases launch <;> simp [ExecTask.Start, hs]

theorem run_starts_of_started (later : List Op) (hlater : ∀ op ∈ later, op.isStart = true) :
    ∀ t : ExecTask, t.startOnce = true → t.run later = t := by
  induction later with
  | nil => intro t _; rfl
  | cons op ops ih =>
    intro t ht
    have hop : op.isStart = true := hlater op (List.mem_cons_self _ _)
    cases op with
    | start ctx launch =>
      rw [run_cons]
      simp only [ExecTask.step, Start_of_started t ctx launch ht]
      exact ih (fun o ho => hlater o (List.mem_cons_of_mem _ ho)) t ht
    | processExit e => simp [Op.isStart] at hop
    | cancel => simp [Op.isStart] at hop
    | close => simp [Op.isStart] at hop
    | addCloseHook fn => simp [Op.isStart] at hop

/-- C7. Whatever the task, after a first call of `Start` every later `Start`
returns nil and leaves the whole task as it is (its scope, its channel, its
recorded error and the launch counters with it), so does any sequence of
later `Start` calls, and the first call made at most one launch attempt. On a
task that began as a struct literal, at most one launch was attempted and at
most one process launched, whatever was done to the task. -/
theorem Start_launches_at_most_once (t : ExecTask) (ctx : Context) (launch : Option Error)
    (later : List Op) (hlater : ∀ op ∈ later, op.isStart = true)
    (taskID groupID execName : String) (execArgv : List String) (Stdout Stderr : Option Sink)
    (ops : List Op) :
    (∀ ctx2 launch2, (t.Start ctx launch).task.Start ctx2 launch2
        = { task := (t.Start ctx launch).task, ret := none, panic := none })
    ∧ (t.Start ctx launch).task.run later = (t.Start ctx launch).task
    ∧ (t.Start ctx launch).task.launchAttempts ≤ t.launchAttempts + 1
    ∧ (t.Start ctx launch).task.launched ≤ t.launched + 1
    ∧ ((ExecTask.fresh taskID groupID execName execArgv Stdout Stderr).run ops).launchAttempts ≤ 1
    ∧ ((ExecTask.fresh taskID groupID execName execArgv Stdout Stderr).run ops).launched ≤ 1 := by
  have hs := startOnce_after_Start t ctx launch
  refine ⟨fun ctx2 launch2 => Start_of_started _ ctx2 launch2 hs,
    run_starts_of_started later hlater _ hs, ?_, ?_, ?_⟩
  · by_cases h : t.startOnce = true
    · simp [ExecTask.Start, h]
    · cases launch <;> simp [ExecTask.Start, h]
  · by_cases h : t.startOnce = true
    · simp [ExecTask.Start, h]
    · cases launch <;> simp [ExecTask.Start, h]
  · have hinv := run_induction
      (fun s => (s.startOnce = false → s.launchAttempts = 0) ∧ s.launchAttempts ≤ 1
        ∧ s.launched ≤ s.launchAttempts)
      step_keeps_attempts ops
      (ExecTask.fresh taskID groupID execName execArgv Stdout Stderr)
      (by simp [ExecTask.fresh])
    exact ⟨hinv.2.1, le_trans hinv.2.2 hinv.2.1⟩

/-- C8. On a task that began as a struct literal and on which no process has
been launched, whatever was done to it, `Wait` returns the "task is not
started" error instead of blocking. In particular this holds before any
`Start`, and after a first `Start` whose launch failed, which returns the
launch error wrapped with the command's name and arguments. -/
theorem Wait_not_started (taskID groupID execName : String) (execArgv : List String)
    (Stdout Stderr : Option Sink) (ops : List Op)
    (h : ((ExecTask.fresh taskID groupID execName execArgv Stdout Stderr).run ops).launched = 0) :
    ((ExecTask.fresh taskID groupID execName execArgv Stdout Stderr).run ops).Wait
        = WaitResult.returned (some (Error.new "task is not started"))
    ∧ (ExecTask.fresh taskID groupID execName execArgv Stdout Stderr).Wait
        = WaitResult.returned (some (Error.new "task is not started"))
    ∧ (∀ ctx serr,
        ((ExecTask.fresh taskID groupID execName execArgv Stdout Stderr).Start ctx (some serr)).ret
            = some (Error.wrap serr (startCommandText execName execArgv))
        ∧ ((ExecTask.fresh taskID groupID execName execArgv Stdout Stderr).Start ctx
              (some serr)).task.launched = 0
        ∧ ((ExecTask.fresh taskID groupID execName execArgv Stdout Stderr).Start ctx
              (some serr)).task.Wait
            = WaitResult.returned (some (Error.new "task is not started"))) := by
  refine ⟨?_, ?_, ?_⟩
  · have hinv := run_induction (fun s => s.launched = 0 → s.doneCh = Chan.nil)
      step_keeps_unlaunched ops
      (ExecTask.fresh taskID groupID execName execArgv Stdout Stderr)
      (by simp [ExecTask.fresh])
    simp [ExecTask.Wait, hinv h]
  · simp [ExecTask.Wait, ExecTask.fresh]
  · intro ctx serr
    simp [ExecTask.Start, ExecTask.Wait, ExecTask.fresh]

/-- Before `Start`, no step but `Start` gives the task a cancel function, a
channel or a waiting goroutine, and none cancels or closes anything. -/
theorem step_keeps_unstarted (t : ExecTask) (op : Op) (hop : op.isStart = false)
    (h : t.startOnce = false ∧ t.cancelFunc = false ∧ t.doneCh = Chan.nil ∧ t.waiting = false
      ∧ t.cancelCalls = 0 ∧ t.closes = 0 ∧ t.ctx = none ∧ t.launched = 0) :
    (t.step op).task.startOnce = false ∧ (t.step op).task.cancelFunc = false
    ∧ (t.step op).task.doneCh = Chan.nil ∧ (t.step op).task.waiting = false
    ∧ (t.step op).task.cancelCalls = 0 ∧ (t.step op).task.closes = 0
    ∧ (t.step op).task.ctx = none ∧ (t.step op).task.launched = 0 := by
  obtain ⟨h1, h2, h3, h4, h5, h6, h7, h8⟩ := h
  cases op with
  | start ctx launch => simp [Op.isStart] at hop
  | processExit e => simp [ExecTask.step, ExecTask.processExit, h1, h2, h3, h4, h5, h6, h7, h8]
  | cancel =>
    by_cases hf : t.finishOnce = true <;>
      simp [ExecTask.step, ExecTask.Cancel, hf, h1, h2, h3, h4, h5, h6, h7, h8]
  | close =>
    by_cases hf : t.finishOnce = true <;>
      simp [ExecTask.step, ExecTask.Close, ExecTask.Cancel, hf, h1, h2, h3, h4, h5, h6, h7, h8]
  | addCloseHook fn => simp [ExecTask.step, ExecTask.AddCloseHook, h1, h2, h3, h4, h5, h6, h7, h8]

theorem run_keeps_unstarted (ops : List Op) (hops : ∀ op ∈ ops, op.isStart = false) :
    ∀ t : ExecTask,
      (t.startOnce = false ∧ t.cancelFunc = false ∧ t.doneCh = Chan.nil ∧ t.waiting = false
        ∧ t.cancelCalls = 0 ∧ t.closes = 0 ∧ t.ctx = none ∧ t.launched = 0) →
      ((t.run ops).startOnce = false ∧ (t.run ops).cancelFunc = false
        ∧ (t.run ops).doneCh = Chan.nil ∧ (t.run ops).waiting = false
        ∧ (t.run ops).cancelCalls = 0 ∧ (t.run ops).closes = 0 ∧ (t.run ops).ctx = none
        ∧ (t.run ops).launched = 0) := by
  induction ops with
  | nil => intro t h; exact h
  | cons op ops ih =>
    intro t h
    rw [run_cons]
    exact ih (fun o ho => hops o (List.mem_cons_of_mem _ ho)) _
      (step_keeps_unstarted t op (hops op (List.mem_cons_self _ _)) h)

/-- Once both gates have fired with the channel still open, no step closes the
channel, cancels the scope or panics. -/
theorem step_keeps_wedged (c : Option Context) (t : ExecTask) (op : Op)
    (h : t.startOnce = true ∧ t.finishOnce = true ∧ t.doneCh = Chan.made
      ∧ t.cancelCalls = 0 ∧ t.closes = 0 ∧ t.ctx = c) :
    ((t.step op).task.startOnce = true ∧ (t.step op).task.finishOnce = true
      ∧ (t.step op).task.doneCh = Chan.made
      ∧ (t.step op).task.cancelCalls = 0 ∧ (t.step op).task.closes = 0
      ∧ (t.step op).task.ctx = c)
    ∧ (t.step op).panic = none := by
  obtain ⟨h1, h2, h3, h4, h5, h6⟩ := h
  cases op with
  | start ctx launch => simp [ExecTask.step, ExecTask.Start, h1, h2, h3, h4, h5, h6]
  | processExit e =>
    by_cases hw : t.waiting = true <;>
      simp [ExecTask.step, ExecTask.processExit, hw, h1, h2, h3, h4, h5, h6]
  | cancel => simp [ExecTask.step, ExecTask.Cancel, h1, h2, h3, h4, h5, h6]
  | close => simp [ExecTask.step, ExecTask.Close, ExecTask.Cancel, h1, h2, h3, h4, h5, h6]
  | addCloseHook fn => simp [ExecTask.step, ExecTask.AddCloseHook, h1, h2, h3, h4, h5, h6]

/-- The facts that tie the channel to the gates: a closed channel means the
finish-once gate has fired, a nil channel means no process was launched and
no goroutine waits, and a cancel function means the start-once gate has fired. -/
theorem step_keeps_channel_facts (t : ExecTask) (op : Op)
    (h : (t.doneCh = Chan.closed → t.finishOnce = true)
      ∧ (t.doneCh = Chan.nil → t.launched = 0 ∧ t.waiting = false)
      ∧ (t.cancelFunc = true → t.startOnce = true)) :
    ((t.step op).task.doneCh = Chan.closed → (t.step op).task.finishOnce = true)
    ∧ ((t.step op).task.doneCh = Chan.nil →
        (t.step op).task.launched = 0 ∧ (t.step op).task.waiting = false)
    ∧ ((t.step op).task.cancelFunc = true → (t.step op).task.startOnce = true) := by
  obtain ⟨h1, h2, h3⟩ := h
  cases op with
  | start ctx launch =>
    by_cases hs : t.startOnce = true
    · simp only [ExecTask.step, Start_of_started t ctx launch hs]
      exact ⟨h1, h2, h3⟩
    · cases launch with
      | none => simp [ExecTask.step, ExecTask.Start, hs]
      | some serr =>
        simp [ExecTask.step, ExecTask.Start, hs]
        exact ⟨h1, h2⟩
  | processExit e =>
    by_cases hw : t.waiting = true <;> by_cases hf : t.finishOnce = true <;>
      cases hd : t.doneCh <;>
      simp_all [ExecTask.step, ExecTask.processExit, Chan.close]
  | cancel =>
    by_cases hf : t.finishOnce = true <;> by_cases hc : t.cancelFunc = true <;>
      cases hd : t.doneCh <;>
      simp_all [ExecTask.step, ExecTask.Cancel, Chan.close]
  | close =>
    by_cases hf : t.finishOnce = true <;> by_cases hc : t.cancelFunc = true <;>
      cases hd : t.doneCh <;>
      simp_all [ExecTask.step, ExecTask.Close, ExecTask.Cancel, Chan.close]
  | addCloseHook fn => simpa [ExecTask.step, ExecTask.AddCloseHook] using ⟨h1, h2, h3⟩

/-- On a task that began as a struct literal, whatever was done to it, the only
panic a step can raise is "close of nil channel", and it is raised only after
a `Start` that launched nothing: the channel is never closed twice. -/
theorem step_panics_only_after_failed_launch (taskID groupID execName : String)
    (execArgv : List String) (Stdout Stderr : Option Sink) (ops : List Op) (op : Op)
    (msg : String)
    (hp : (((ExecTask.fresh taskID groupID execName execArgv Stdout Stderr).run ops).step
        op).panic = some msg) :
    msg = "close of nil channel"
    ∧ ((ExecTask.fresh taskID groupID execName execArgv Stdout Stderr).run ops).startOnce = true
    ∧ ((ExecTask.fresh taskID groupID execName execArgv Stdout Stderr).run ops).launched = 0 := by
  have hinv := run_induction
    (fun s => (s.doneCh = Chan.closed → s.finishOnce = true)
      ∧ (s.doneCh = Chan.nil → s.launched = 0 ∧ s.waiting = false)
      ∧ (s.cancelFunc = true → s.startOnce = true))
    step_keeps_channel_facts ops
    (ExecTask.fresh taskID groupID execName execArgv Stdout Stderr)
    (by simp [ExecTask.fresh])
  revert hp hinv
  generalize (ExecTask.fresh taskID groupID execName execArgv Stdout Stderr).run ops = t
  intro hp hinv
  obtain ⟨h1, h2, h3⟩ := hinv
  cases op with
  | start ctx launch =>
    by_cases hs : t.startOnce = true
    · simp [ExecTask.step, ExecTask.Start, hs] at hp
    · cases launch <;> simp [ExecTask.step, ExecTask.Start, hs] at hp
  | processExit e =>
    by_cases hw : t.waiting = true <;> by_cases hf : t.finishOnce = true <;>
      cases hd : t.doneCh <;>
      simp_all [ExecTask.step, ExecTask.processExit, Chan.close]
  | cancel =>
    by_cases hf : t.finishOnce = true <;> by_cases hc : t.cancelFunc = true <;>
      cases hd : t.doneCh <;>
      simp_all [ExecTask.step, ExecTask.Cancel, Chan.close]
  | close =>
    by_cases hf : t.finishOnce = true <;> by_cases hc : t.cancelFunc = true <;>
      cases hd : t.doneCh <;>
      simp_all [ExecTask.step, ExecTask.Close, ExecTask.Cancel, Chan.close]
  | addCloseHook fn => simp [ExecTask.step] at hp

/-- C10. Take a task that began as a struct literal and has seen no `Start`
yet, and call `Cancel` or `Close` on it: the call does not panic, fires the
finish-once gate, cancels no scope and closes no channel. If `Start` then
launches the process, then in every later state, whatever is done to the
task, the channel is still open, nothing has been closed, the scope has not
been cancelled by the task, `Wait` is blocked, no step panics, and `Cancel`
does nothing at all. -/
theorem Cancel_before_Start_wedges (taskID groupID execName : String) (execArgv : List String)
    (Stdout Stderr : Option Sink) (pre : List Op) (hpre : ∀ op ∈ pre, op.isStart = false)
    (t : ExecTask)
    (ht : t = (ExecTask.fresh taskID groupID execName execArgv Stdout Stderr).run pre)
    (c : Op) (hc : c = Op.cancel ∨ c = Op.close) (ctx : Context) (post : List Op) (op : Op) :
    ((t.step c).panic = none ∧ (t.step c).task.finishOnce = true
      ∧ (t.step c).task.cancelCalls = 0 ∧ (t.step c).task.closes = 0
      ∧ (t.step c).task.doneCh = Chan.nil ∧ (t.step c).task.ctx = none)
    ∧ (((t.step c).task.Start ctx none).ret = none
      ∧ ((t.step c).task.Start ctx none).task.launched = 1
      ∧ ((t.step c).task.Start ctx none).task.waiting = true)
    ∧ ((((t.step c).task.Start ctx none).task.run post).doneCh = Chan.made
      ∧ (((t.step c).task.Start ctx none).task.run post).closes = 0
      ∧ (((t.step c).task.Start ctx none).task.run post).cancelCalls = 0
      ∧ (((t.step c).task.Start ctx none).task.run post).ctx = some (WithCancel ctx)
      ∧ (((t.step c).task.Start ctx none).task.run post).Wait = WaitResult.blocked
      ∧ ((((t.step c).task.Start ctx none).task.run post).step op).panic = none
      ∧ (((t.step c).task.Start ctx none).task.run post).Cancel
          = { task := ((t.step c).task.Start ctx none).task.run post,
              ret := none, panic := none }) := by
  have h0 := run_keeps_unstarted pre hpre
    (ExecTask.fresh taskID groupID execName execArgv Stdout Stderr) (by simp [ExecTask.fresh])
  rw [← ht] at h0
  have hcs : c.isStart = false := by
    rcases hc with rfl | rfl <;> rfl
  have h1 := step_keeps_unstarted t c hcs h0
  obtain ⟨a1, a2, a3, a4, a5, a6, a7, a8⟩ := h0
  have hfired : (t.step c).panic = none ∧ (t.step c).task.finishOnce = true := by
    rcases hc with rfl | rfl <;> by_cases hf : t.finishOnce = true <;>
      simp [ExecTask.step, ExecTask.Close, ExecTask.Cancel, hf, a2]
  obtain ⟨b1, b2, b3, b4, b5, b6, b7, b8⟩ := h1
  have hstart : ((t.step c).task.Start ctx none).ret = none
      ∧ ((t.step c).task.Start ctx none).task.launched = 1
      ∧ ((t.step c).task.Start ctx none).task.waiting = true
      ∧ ((t.step c).task.Start ctx none).task.startOnce = true
      ∧ ((t.step c).task.Start ctx none).task.finishOnce = true
      ∧ ((t.step c).task.Start ctx none).task.doneCh = Chan.made
      ∧ ((t.step c).task.Start ctx none).task.cancelCalls = 0
      ∧ ((t.step c).task.Start ctx none).task.closes = 0
      ∧ ((t.step c).task.Start ctx none).task.ctx = some (WithCancel ctx) := by
    simp [ExecTask.Start, b1, b5, b6, b8, hfired.2]
  obtain ⟨s1, s2, s3, s4, s5, s6, s7, s8, s9⟩ := hstart
  have hinv := run_induction
    (fun s => s.startOnce = true ∧ s.finishOnce = true ∧ s.doneCh = Chan.made
      ∧ s.cancelCalls = 0 ∧ s.closes = 0 ∧ s.ctx = some (WithCancel ctx))
    (fun s o hs => (step_keeps_wedged _ s o hs).1) post
    ((t.step c).task.Start ctx none).task ⟨s4, s5, s6, s7, s8, s9⟩
  refine ⟨⟨hfired.1, hfired.2, b5, b6, b3, b7⟩, ⟨s1, s2, s3⟩,
    hinv.2.2.1, hinv.2.2.2.2.1, hinv.2.2.2.1, hinv.2.2.2.2.2, ?_,
    (step_keeps_wedged _ _ op hinv).2, Cancel_of_fired _ hinv.2.1⟩
  simp [ExecTask.Wait, hinv.2.2.1]

/-- C5. A struct-literal task on which `Cancel` is called before `Start`:
`Start` launches the process, the process exits, and the channel has never
been closed, no terminal error has been written and `Wait` is blocked; a
further `Cancel` changes nothing. -/
theorem exit_after_early_Cancel_never_finalizes (taskID groupID execName : String)
    (execArgv : List String) (Stdout Stderr : Option Sink) (ctx : Context)
    (processErr : Option Error) :
    ((ExecTask.fresh taskID groupID execName execArgv Stdout Stderr).run
        [Op.cancel, Op.start ctx none]).launched = 1
    ∧ ((ExecTask.fresh taskID groupID execName execArgv Stdout Stderr).run
        [Op.cancel, Op.start ctx none, Op.processExit processErr]).closes = 0
    ∧ ((ExecTask.fresh taskID groupID execName execArgv Stdout Stderr).run
        [Op.cancel, Op.start ctx none, Op.processExit processErr]).errWrites = 0
    ∧ ((ExecTask.fresh taskID groupID execName execArgv Stdout Stderr).run
        [Op.cancel, Op.start ctx none, Op.processExit processErr]).Wait = WaitResult.blocked
    ∧ ((ExecTask.fresh taskID groupID execName execArgv Stdout Stderr).run
        [Op.cancel, Op.start ctx none, Op.processExit processErr, Op.cancel]).Wait
          = WaitResult.blocked := by
  simp [ExecTask.run, ExecTask.step, ExecTask.fresh, ExecTask.Cancel, ExecTask.Start,
    ExecTask.processExit, ExecTask.Wait]

/-- C6. A struct-literal task whose first `Start` fails to launch: the next
`Cancel` panics with "close of nil channel", and so does `Close`, which
therefore does not return nil. -/
theorem Cancel_after_failed_launch_panics (taskID groupID execName : String)
    (execArgv : List String) (Stdout Stderr : Option Sink) (ctx : Context) (serr : Error) :
    ((ExecTask.fresh taskID groupID execName execArgv Stdout Stderr).Start ctx (some serr)).ret
        = some (Error.wrap serr (startCommandText execName execArgv))
    ∧ ((ExecTask.fresh taskID groupID execName execArgv Stdout Stderr).Start ctx
        (some serr)).task.Cancel.panic = some "close of nil channel"
    ∧ ((ExecTask.fresh taskID groupID execName execArgv Stdout Stderr).Start ctx
        (some serr)).task.Close.panic = some "close of nil channel" := by
  simp [ExecTask.fresh, ExecTask.Start, ExecTask.Cancel, ExecTask.Close, Chan.close]

theorem step_keeps_finalized (t : ExecTask) (op : Op)
    (hop : op.isExit = true ∨ op.isCancel = true) (h : t.finishOnce = true) :
    (t.step op).panic = none ∧ (t.step op).task.finishOnce = true
    ∧ (t.step op).task.doneCh = t.doneCh ∧ (t.step op).task.doneErr = t.doneErr
    ∧ (t.step op).task.closes = t.closes ∧ (t.step op).task.errWrites = t.errWrites := by
  cases op with
  | start ctx launch => simp [Op.isExit, Op.isCancel] at hop
  | processExit e =>
    by_cases hw : t.waiting = true <;> simp [ExecTask.step, ExecTask.processExit, hw, h]
  | cancel => simp [ExecTask.step, ExecTask.Cancel, h]
  | close => simp [Op.isExit, Op.isCancel] at hop
  | addCloseHook fn => simp [Op.isExit, Op.isCancel] at hop

theorem run_keeps_finalized (ops : List Op)
    (hops : ∀ op ∈ ops, op.isExit = true ∨ op.isCancel = true) :
    ∀ t : ExecTask, t.finishOnce = true →
      t.panics ops = [] ∧ (t.run ops).finishOnce = true
      ∧ (t.run ops).doneCh = t.doneCh ∧ (t.run ops).doneErr = t.doneErr
      ∧ (t.run ops).closes = t.closes ∧ (t.run ops).errWrites = t.errWrites := by
  induction ops with
  | nil => intro t h; exact ⟨rfl, h, rfl, rfl, rfl, rfl⟩
  | cons op ops ih =>
    intro t h
    obtain ⟨p1, p2, p3, p4, p5, p6⟩ :=
      step_keeps_finalized t op (hops op (List.mem_cons_self _ _)) h
    obtain ⟨q1, q2, q3, q4, q5, q6⟩ :=
      ih (fun o ho => hops o (List.mem_cons_of_mem _ ho)) _ p2
    rw [run_cons]
    refine ⟨?_, q2, q3.trans p3, q4.trans p4, q5.trans p5, q6.trans p6⟩
    simp [ExecTask.panics, p1, q1]

/-- The race itself, on a task whose finish-once gate has not fired when
`Start` launches the process: along every interleaving of process exits and
`Cancel` calls nothing panics, the channel is closed once, the terminal error
is written at most once, and from the first step on `Wait` returns one value,
the exit error when the exit came first and nil when `Cancel` came first. -/
theorem race_finalizes_once_with_intact_gate (t : ExecTask) (hs : t.startOnce = false)
    (hf : t.finishOnce = false) (he : t.doneErr = none) (ctx : Context)
    (first : Op) (hfirst : first.isExit = true ∨ first.isCancel = true)
    (rest : List Op) (hrest : ∀ op ∈ rest, op.isExit = true ∨ op.isCancel = true) :
    (t.Start ctx none).task.panics (first :: rest) = []
    ∧ ((t.Start ctx none).task.run (first :: rest)).doneCh = Chan.closed
    ∧ ((t.Start ctx none).task.run (first :: rest)).closes = t.closes + 1
    ∧ ((t.Start ctx none).task.run (first :: rest)).errWrites ≤ t.errWrites + 1
    ∧ ((t.Start ctx none).task.run (first :: rest)).Wait
        = WaitResult.returned (match first with
            | Op.processExit processErr => processErr
            | _ => none) := by
  have hfin : ((t.Start ctx none).task.step first).panic = none
      ∧ ((t.Start ctx none).task.step first).task.finishOnce = true
      ∧ ((t.Start ctx none).task.step first).task.doneCh = Chan.closed
      ∧ ((t.Start ctx none).task.step first).task.closes = t.closes + 1
      ∧ ((t.Start ctx none).task.step first).task.errWrites ≤ t.errWrites + 1
      ∧ ((t.Start ctx none).task.step first).task.doneErr
          = (match first with
              | Op.processExit processErr => processErr
              | _ => none) := by
    cases first with
    | start c l => simp [Op.isExit, Op.isCancel] at hfirst
    | processExit e =>
      simp [ExecTask.step, ExecTask.Start, ExecTask.processExit, Chan.close, hs, hf]
    | cancel =>
      simp [ExecTask.step, ExecTask.Start, ExecTask.Cancel, Chan.close, hs, hf, he]
    | close => simp [Op.isExit, Op.isCancel] at hfirst
    | addCloseHook fn => simp [Op.isExit, Op.isCancel] at hfirst
  obtain ⟨p1, p2, p3, p4, p5, p6⟩ := hfin
  obtain ⟨q1, q2, q3, q4, q5, q6⟩ := run_keeps_finalized rest hrest _ p2
  rw [run_cons]
  refine ⟨?_, q3.trans p3, q5.trans p4, ?_, ?_⟩
  · simp [ExecTask.panics, p1, q1]
  · rw [q6]; exact p5
  · simp [ExecTask.Wait, q3.trans p3, q4.trans p6]

/-! ## Instances on concrete inputs -/

/-- With every `Cancel()` returning, `CancelGroup("g")` on a new controller
changes nothing; after `Submit` of `taskA` and `taskB` it makes two calls and
leaves neither task registered. -/
theorem CancelGroup_evicts_when_Cancel_returns_witness :
    ((NewTaskController.CancelGroup "g" cancelReturns).c = NewTaskController
      ∧ (NewTaskController.CancelGroup "g" cancelReturns).calls = [])
    ∧ (controllerAB.CancelGroup "g" cancelReturns).panic = none
    ∧ (controllerAB.CancelGroup "g" cancelReturns).calls.length = 2
    ∧ (controllerAB.CancelGroup "g" cancelReturns).c.registered "g" "1" = none
    ∧ (controllerAB.CancelGroup "g" cancelReturns).c.registered "g" "2" = none :=
  ⟨(CancelGroup_evicts_when_Cancel_returns NewTaskController "g" cancelReturns
      (fun _ _ _ _ => rfl)).2.2.2.2.2.1 (fun _ => rfl),
   (CancelGroup_evicts_when_Cancel_returns controllerAB "g" cancelReturns
      (fun _ _ _ _ => rfl)).1,
   ((CancelGroup_evicts_when_Cancel_returns controllerAB "g" cancelReturns
      (fun _ _ _ _ => rfl)).2.1.length_eq).trans rfl,
   (CancelGroup_evicts_when_Cancel_returns controllerAB "g" cancelReturns
      (fun _ _ _ _ => rfl)).2.2.1 "1",
   (CancelGroup_evicts_when_Cancel_returns controllerAB "g" cancelReturns
      (fun _ _ _ _ => rfl)).2.2.1 "2"⟩

/-- Counterexample to C1 as stated. The process task whose launch failed is
registered at `("g", "1")`; its `Cancel()` panics, so `CancelGroup("g")` panics and the task is still
registered afterwards, and a second `CancelGroup("g")`, in which `Cancel()`
returns because the finish-once gate has fired, does remove it. -/
theorem CancelGroup_keeps_entry_when_Cancel_panics :
    (controllerFailedExec.registered "g" "1").isSome = true
    ∧ (controllerFailedExec.CancelGroup "g" execFailed.cancelOutcome).panic
        = some "close of nil channel"
    ∧ ((controllerFailedExec.CancelGroup "g" execFailed.cancelOutcome).c.registered
        "g" "1").isSome = true
    ∧ (((controllerFailedExec.CancelGroup "g" execFailed.cancelOutcome).c.CancelGroup "g"
        execFailed.Cancel.task.cancelOutcome).c.registered "g" "1").isSome = false := by
  refine ⟨by rfl, by decide, by rfl, by rfl⟩

/-- With every `Cancel()` returning, `CancelTask` on a new controller changes
nothing; after `Submit(taskA)` it cancels `taskA` once and removes its entry. -/
theorem CancelTask_refines_reference_when_Cancel_returns_witness :
    (NewTaskController.CancelTask { GroupID := "g", TaskID := "1" } cancelReturns).c
        = NewTaskController
    ∧ ((NewTaskController.Submit taskA clockDemo).c.CancelTask
        { GroupID := "g", TaskID := "1" } cancelReturns).calls = [Call.cancel taskA]
    ∧ ((NewTaskController.Submit taskA clockDemo).c.CancelTask
        { GroupID := "g", TaskID := "1" } cancelReturns).c.registered "g" "1" = none :=
  ⟨(CancelTask_refines_reference_when_Cancel_returns NewTaskController
      { GroupID := "g", TaskID := "1" } cancelReturns (fun _ _ _ => rfl)).2.2.2.1 rfl,
   ((CancelTask_refines_reference_when_Cancel_returns NewTaskController
      { GroupID := "g", TaskID := "1" } cancelReturns (fun _ _ _ => rfl)).2.2.2.2.2.2
        taskA clockDemo rfl rfl (fun _ => rfl)).2.1.trans rfl,
   ((CancelTask_refines_reference_when_Cancel_returns NewTaskController
      { GroupID := "g", TaskID := "1" } cancelReturns (fun _ _ _ => rfl)).2.2.2.2.2.2
        taskA clockDemo rfl rfl (fun _ => rfl)).2.2⟩

/-- Counterexample to C2 as stated. The process task whose launch failed is
registered at `("g", "1")`; its `Cancel()` panics, so `CancelTask` panics and leaves the entry in place, where
the reference behaviour removes it, and a second `CancelTask`, in which
`Cancel()` returns because the finish-once gate has fired, does remove it. -/
theorem CancelTask_keeps_entry_when_Cancel_panics :
    (controllerFailedExec.CancelTask { GroupID := "g", TaskID := "1" }
        execFailed.cancelOutcome).panic = some "close of nil channel"
    ∧ ((controllerFailedExec.CancelTask { GroupID := "g", TaskID := "1" }
        execFailed.cancelOutcome).c.registered "g" "1").isSome = true
    ∧ ((cancelTaskReference controllerFailedExec.registered
        { GroupID := "g", TaskID := "1" }).1 "g" "1").isSome = false
    ∧ (((controllerFailedExec.CancelTask { GroupID := "g", TaskID := "1" }
        execFailed.cancelOutcome).c.CancelTask { GroupID := "g", TaskID := "1" }
        execFailed.Cancel.task.cancelOutcome).c.registered "g" "1").isSome = false := by
  refine ⟨by decide, by rfl, by rfl, by rfl⟩

/-- Submitting `taskA` with a timeout of 1 ms on a new controller registers it
at `("g", "1")`. -/
theorem SubmitWithTimeout_registers_witness :
    taskA.Start (WithTimeout NewTaskController.ctx 1000000 clockDemo) = none
    ∧ (NewTaskController.SubmitWithTimeout taskA 1000000 clockDemo).ret = none
    ∧ (NewTaskController.SubmitWithTimeout taskA 1000000 clockDemo).c.registered "g" "1"
        = some taskA :=
  ⟨rfl,
   (SubmitWithTimeout_registers NewTaskController taskA 1000000 clockDemo rfl).1,
   ((SubmitWithTimeout_registers NewTaskController taskA 1000000 clockDemo rfl).2.1
      { GroupID := "g", TaskID := "1" } rfl).2.2.1⟩

/-- Submitting `taskFailing` returns its error and leaves `controllerAB` as it was. -/
theorem SubmitWithTimeout_start_error_witness :
    taskFailing.Start (WithTimeout controllerAB.ctx 1000000 clockDemo) = some (Error.new "boom")
    ∧ (controllerAB.SubmitWithTimeout taskFailing 1000000 clockDemo).ret
        = some (Error.new "boom")
    ∧ (controllerAB.SubmitWithTimeout taskFailing 1000000 clockDemo).c = controllerAB :=
  ⟨rfl,
   (SubmitWithTimeout_start_error controllerAB taskFailing 1000000 clockDemo
      (Error.new "boom") rfl).1,
   (SubmitWithTimeout_start_error controllerAB taskFailing 1000000 clockDemo
      (Error.new "boom") rfl).2.1⟩

/-- Two more `Start` calls on the started `execDemo` change nothing, and a run
with two `Start` calls launches at most one process. -/
theorem Start_launches_at_most_once_witness :
    (execDemo.Start Background none).task.run
        [Op.start Background none, Op.start Background (some (Error.new "late"))]
      = (execDemo.Start Background none).task
    ∧ (execDemo.run [Op.start Background none, Op.cancel, Op.start Background none]).launched
        ≤ 1 :=
  ⟨(Start_launches_at_most_once execDemo Background none
      [Op.start Background none, Op.start Background (some (Error.new "late"))]
      (by decide) "1" "g" "sleep" ["1"] none none
      [Op.start Background none, Op.cancel, Op.start Background none]).2.1,
   (Start_launches_at_most_once execDemo Background none
      [Op.start Background none, Op.start Background (some (Error.new "late"))]
      (by decide) "1" "g" "sleep" ["1"] none none
      [Op.start Background none, Op.cancel, Op.start Background none]).2.2.2.2.2⟩

/-- After a failed launch and a second `Start`, `Wait` on `execDemo` still
reports that the task is not started. -/
theorem Wait_not_started_witness :
    (execDemo.run
        [Op.start Background (some (Error.new "not found")), Op.start Background none]).launched
      = 0
    ∧ (execDemo.run
        [Op.start Background (some (Error.new "not found")), Op.start Background none]).Wait
      = WaitResult.returned (some (Error.new "task is not started")) :=
  ⟨by decide,
   (Wait_not_started "1" "g" "sleep" ["1"] none none
      [Op.start Background (some (Error.new "not found")), Op.start Background none]
      (by decide)).1⟩

/-- Calling `Close` before `Start` on `execDemo`: after the launch, the exit of the
process and a `Cancel`, `Wait` is blocked. -/
theorem Cancel_before_Start_wedges_witness :
    ((((execDemo.run [Op.addCloseHook (some "release")]).step Op.close).task.Start
        Background none).task.run [Op.processExit none, Op.cancel]).Wait
      = WaitResult.blocked :=
  (Cancel_before_Start_wedges "1" "g" "sleep" ["1"] none none
    [Op.addCloseHook (some "release")] (by decide)
    (execDemo.run [Op.addCloseHook (some "release")]) rfl
    Op.close (Or.inr rfl) Background [Op.processExit none, Op.cancel] Op.cancel).2.2.2.2.2.2.1

end Gotask
